import Mathlib

/-
  Shallow embedding of the rptcam renderer and camera core.

  Scalars of the Rust source (f64) are embedded as exact rationals (ℚ).
  Operations that f64 provides but ℚ does not (square root, real powers,
  trigonometry) are threaded through as explicit function parameters
  (`sq`, `pw`, `tn`); theorems that depend on their defining properties
  take those properties as hypotheses at the points of use.

  External collaborators that are out of scope of the core (shapes,
  materials, lights, random number generators) are embedded as function
  fields / abstract state, following the interface contracts of the
  specification. The RNG is an abstract state type `σ` threaded
  explicitly through every call that mutates it in the source.
-/

namespace Rpt

/-- A 3-component vector of exact rationals, embedding `glm::DVec3`. -/
structure Vec3 where
  x : ℚ
  y : ℚ
  z : ℚ
deriving DecidableEq

/-- Component-wise vector addition. -/
def Vec3.add (a b : Vec3) : Vec3 := ⟨a.x + b.x, a.y + b.y, a.z + b.z⟩

/-- Component-wise vector subtraction. -/
def Vec3.sub (a b : Vec3) : Vec3 := ⟨a.x - b.x, a.y - b.y, a.z - b.z⟩

/-- Component-wise vector negation. -/
def Vec3.neg (a : Vec3) : Vec3 := ⟨-a.x, -a.y, -a.z⟩

/-- Scalar multiple of a vector. -/
def Vec3.smul (c : ℚ) (a : Vec3) : Vec3 := ⟨c * a.x, c * a.y, c * a.z⟩

instance : Add Vec3 := ⟨Vec3.add⟩
instance : Sub Vec3 := ⟨Vec3.sub⟩
instance : Neg Vec3 := ⟨Vec3.neg⟩
instance : SMul ℚ Vec3 := ⟨Vec3.smul⟩

/-- Dot product of two vectors (`glm::dot`). -/
def Vec3.dot (a b : Vec3) : ℚ := a.x * b.x + a.y * b.y + a.z * b.z

/-- Cross product of two vectors (`glm::cross`). -/
def Vec3.cross (a b : Vec3) : Vec3 :=
  ⟨a.y * b.z - a.z * b.y, a.z * b.x - a.x * b.z, a.x * b.y - a.y * b.x⟩

/-- Component-wise product (`component_mul`). -/
def Vec3.compMul (a b : Vec3) : Vec3 := ⟨a.x * b.x, a.y * b.y, a.z * b.z⟩

/-- Normalization `v / ‖v‖` (`glm::normalize`), with the square root of the
squared norm supplied by the explicit `sq` parameter. -/
def Vec3.normalize (sq : ℚ → ℚ) (v : Vec3) : Vec3 :=
  (sq (v.dot v))⁻¹ • v

/-- A ray with an origin and a direction (`shape::Ray`). -/
structure Ray where
  origin : Vec3
  dir : Vec3
deriving DecidableEq

/-- Position along a ray (`Ray::at`): origin + time * dir. -/
def Ray.at (r : Ray) (time : ℚ) : Vec3 := r.origin + time • r.dir

/-- Mutable closest-hit scan state (`shape::HitRecord`).
Modelled from the spec: `HitRecord` holds the closest intersection time
found so far and the surface normal there; the initial record (the source's
`HitRecord::new`, whose file is not part of the provided sources) starts
with no hit yet, i.e. time `f64::INFINITY`, embedded as `none`. -/
structure HitRecord where
  time : Option ℚ
  normal : Vec3
deriving DecidableEq

/-- The fresh record produced by `HitRecord::new`: no hit found yet. -/
def hitRecordNew : HitRecord := ⟨none, ⟨0, 0, 0⟩⟩

/-- Boolean test `a < t` where `t` is an optionally-infinite stored time
(`none` plays the role of `f64::INFINITY`). -/
def optLtB (a : ℚ) : Option ℚ → Bool
  | none => true
  | some b => decide (a < b)

/-- Propositional form of `optLtB`. -/
def optLt (a : ℚ) (o : Option ℚ) : Prop := optLtB a o = true

instance (a : ℚ) (o : Option ℚ) : Decidable (optLt a o) := by
  unfold optLt; infer_instance

/-- Ordering `a ≤ t` against an optionally-infinite stored time. -/
def optLe (a : ℚ) : Option ℚ → Prop
  | none => True
  | some b => a ≤ b

/-- Polygon composed of points (`camera::Polygon`). -/
structure Polygon where
  pts : List (ℚ × ℚ)
deriving DecidableEq

/-- Even-odd crossing-number membership test (`Polygon::contains`),
a direct embedding of the `while` loop of the source. -/
def Polygon.contains (poly : Polygon) (x y : ℚ) : Bool :=
  let n := poly.pts.length
  (List.range n).foldl
    (fun c i =>
      let j := if i = 0 then n - 1 else i - 1
      let prev := poly.pts.getD j (0, 0)
      let curr := poly.pts.getD i (0, 0)
      if (decide (y < curr.2) != decide (y < prev.2)) &&
          decide (x < (prev.1 - curr.1) * (y - curr.2) / (prev.2 - curr.2) + curr.1)
      then !c else c)
    false

/-- Aperture shape variants (`camera::ApertureShape`). -/
inductive ApertureShape where
  | circle : ApertureShape
  | square : ApertureShape
  | poly : Polygon → ApertureShape
deriving DecidableEq

/-- Membership of a normalized 2D point in an aperture shape.
The polygon case is the source's `Polygon::contains`; the circle and square
cases are modelled from the spec (§4.1): the circle is the unit disc
`x² + y² < 1` and the square is `max(|x|, |y|) < 1`. The source itself
never tests shape containment outside the polygon sampler, which is what
claim C1 is about. -/
def ApertureShape.containsPoint : ApertureShape → ℚ → ℚ → Bool
  | .circle, x, y => decide (x * x + y * y < 1)
  | .square, x, y => decide (max |x| |y| < 1)
  | .poly p, x, y => p.contains x y

/-- Camera aperture (`camera::Aperture`): radius scale, focal distance
(meaningful only for the thin-lens camera) and shape. -/
structure Aperture where
  scale : ℚ
  focal_distance : ℚ
  shape : ApertureShape
deriving DecidableEq

/-- Refractive index of the ambient imaging medium (`IMAGING_MEDIUM_N_D`). -/
def IMAGING_MEDIUM_N_D : ℚ := 1

/-- Wavelength of the sodium D line (`WAVELENGTH_D_LINE`, 589.3e-9). -/
def WAVELENGTH_D_LINE : ℚ := 5893 / 10000000000

/-- Wavelength of the hydrogen F line (`WAVELENGTH_F_LINE`, 486.1e-9). -/
def WAVELENGTH_F_LINE : ℚ := 4861 / 10000000000

/-- Wavelength of the hydrogen C line (`WAVELENGTH_C_LINE`, 656.3e-9). -/
def WAVELENGTH_C_LINE : ℚ := 6563 / 10000000000

/-- An object-facing surface of a lens element (`lens::LensSurface`). -/
structure LensSurface where
  radius : ℚ
  thickness : ℚ
  aperture : Aperture
  n_d : Option ℚ
  v_no : ℚ
deriving DecidableEq

/-- Index of refraction of a surface at a given wavelength
(`LensSurface::n`), linear Abbe-number dispersion model. -/
def LensSurface.n (s : LensSurface) (wavelength : ℚ) : Option ℚ :=
  match s.n_d with
  | some n_d =>
      let k := (n_d - 1) / (s.v_no * (WAVELENGTH_F_LINE - WAVELENGTH_C_LINE))
      some (n_d + k * (wavelength - WAVELENGTH_D_LINE))
  | none => none

/-- A lens system: ordered surfaces from object-facing to sensor-facing
(`lens::LensSystem`). -/
structure LensSystem where
  surfaces : List LensSurface
deriving DecidableEq

/-- A single spherical lens (`lens::SingleLens`). -/
structure SingleLens where
  r1 : ℚ
  r2 : ℚ
  aperture : Aperture
  thickness : ℚ
  n_d : ℚ
  v_no : ℚ
deriving DecidableEq

/-- Thick-lens focal length (`SingleLens::focal_length`). -/
def SingleLens.focal_length (L : SingleLens) : ℚ :=
  1 / ((L.n_d - 1) *
    (1 / L.r1 + 1 / L.r2 - (L.n_d - 1) * L.thickness / (L.n_d * L.r1 * L.r2)))

/-- Object distance clamped into the supported focus range, the source's
`object_distance.max(4. * self.focal_length())` at the top of
`SingleLens::lens_system`. -/
def SingleLens.odist (L : SingleLens) (d : ℚ) : ℚ := max d (4 * L.focal_length)

/-- Discriminant `b*b - 4*a*c` of the image-distance quadratic in
`SingleLens::lens_system`, with `a = 1`, `b = -object_distance`,
`c = focal_length * object_distance`. -/
def SingleLens.discr (L : SingleLens) (d : ℚ) : ℚ :=
  (-(L.odist d)) * (-(L.odist d)) - 4 * 1 * (L.focal_length * L.odist d)

/-- Minimum mechanical clearance `thickness / 2 + 0.2` in
`SingleLens::lens_system`. -/
def SingleLens.min_distance (L : SingleLens) : ℚ := L.thickness / 2 + 1 / 5

/-- Root `(-b - sqrt(disc)) / 2 / a` of the image-distance quadratic. -/
def SingleLens.opt1 (sq : ℚ → ℚ) (L : SingleLens) (d : ℚ) : ℚ :=
  (-(-(L.odist d)) - sq (L.discr d)) / 2 / 1

/-- Root `(-b + sqrt(disc)) / 2 / a` of the image-distance quadratic. -/
def SingleLens.opt2 (sq : ℚ → ℚ) (L : SingleLens) (d : ℚ) : ℚ :=
  (-(-(L.odist d)) + sq (L.discr d)) / 2 / 1

/-- Image-distance selection of `SingleLens::lens_system`: the clearance on
a negative discriminant, else the first root exceeding the clearance, else
the clearance itself. -/
def SingleLens.image_distance (sq : ℚ → ℚ) (L : SingleLens) (d : ℚ) : ℚ :=
  if L.discr d < 0 then L.min_distance
  else if L.min_distance < L.opt1 sq d then L.opt1 sq d
  else if L.min_distance < L.opt2 sq d then L.opt2 sq d
  else L.min_distance

/-- Surface stack returned by `SingleLens::lens_system`. -/
def SingleLens.lens_system (sq : ℚ → ℚ) (L : SingleLens) (d : ℚ) : LensSystem :=
  ⟨[⟨L.r1, L.thickness, L.aperture, some L.n_d, L.v_no⟩,
    ⟨-L.r2, L.image_distance sq d - L.thickness / 2, L.aperture, none, 0⟩]⟩

/-- An achromatic doublet (`lens::AchromaticDoublet`), with its private
fields taken as given (its `new` constructor only computes `r2`, `r3` from
the remaining parameters and is not needed by the claims). -/
structure AchromaticDoublet where
  v1 : ℚ
  v2 : ℚ
  n1 : ℚ
  n2 : ℚ
  feq : ℚ
  thickness : ℚ
  aperture : Aperture
  r1 : ℚ
  r2 : ℚ
  r3 : ℚ
deriving DecidableEq

/-- Focal length of the doublet (`AchromaticDoublet::focal_length`). -/
def AchromaticDoublet.focal_length (M : AchromaticDoublet) : ℚ := M.feq

/-- Clamped object distance in `AchromaticDoublet::lens_system`. -/
def AchromaticDoublet.odist (M : AchromaticDoublet) (d : ℚ) : ℚ :=
  max d (4 * M.focal_length)

/-- Discriminant of the image-distance quadratic in
`AchromaticDoublet::lens_system`. -/
def AchromaticDoublet.discr (M : AchromaticDoublet) (d : ℚ) : ℚ :=
  (-(M.odist d)) * (-(M.odist d)) - 4 * 1 * (M.focal_length * M.odist d)

/-- Minimum clearance `thickness + 0.2` in `AchromaticDoublet::lens_system`. -/
def AchromaticDoublet.min_distance (M : AchromaticDoublet) : ℚ := M.thickness + 1 / 5

/-- Root `(-b - sqrt(disc)) / 2 / a` for the doublet. -/
def AchromaticDoublet.opt1 (sq : ℚ → ℚ) (M : AchromaticDoublet) (d : ℚ) : ℚ :=
  (-(-(M.odist d)) - sq (M.discr d)) / 2 / 1

/-- Root `(-b + sqrt(disc)) / 2 / a` for the doublet. -/
def AchromaticDoublet.opt2 (sq : ℚ → ℚ) (M : AchromaticDoublet) (d : ℚ) : ℚ :=
  (-(-(M.odist d)) + sq (M.discr d)) / 2 / 1

/-- Image-distance selection of `AchromaticDoublet::lens_system`. -/
def AchromaticDoublet.image_distance (sq : ℚ → ℚ) (M : AchromaticDoublet) (d : ℚ) : ℚ :=
  if M.discr d < 0 then M.min_distance
  else if M.min_distance < M.opt1 sq d then M.opt1 sq d
  else if M.min_distance < M.opt2 sq d then M.opt2 sq d
  else M.min_distance

/-- Surface stack returned by `AchromaticDoublet::lens_system` (the
source's `println!` progress line is a side effect with no embedded
counterpart). -/
def AchromaticDoublet.lens_system (sq : ℚ → ℚ) (M : AchromaticDoublet) (d : ℚ) :
    LensSystem :=
  ⟨[⟨M.r1, M.thickness, M.aperture, some M.n1, M.v1⟩,
    ⟨-M.r2, M.thickness, M.aperture, some M.n2, M.v2⟩,
    ⟨-M.r3, M.image_distance sq d - M.thickness, M.aperture, none, 0⟩]⟩

/-- Focus-independent data of a lens system: every per-surface field other
than thickness, plus the thicknesses of all non-terminal surfaces. -/
def LensSystem.shapeData (s : LensSystem) :
    List (ℚ × Aperture × Option ℚ × ℚ) × List ℚ :=
  (s.surfaces.map (fun sf => (sf.radius, sf.aperture, sf.n_d, sf.v_no)),
    s.surfaces.dropLast.map (fun sf => sf.thickness))

/-- One pass of the `iterative_render` loop body acting on the completed
iteration count: `iteration += min(num_samples - iteration, callback_interval)`
(`Renderer::iterative_render`). -/
def renderStep (numSamples callbackInterval iteration : ℕ) : ℕ :=
  iteration + min (numSamples - iteration) callbackInterval

/-- The sequence of `completed_samples` values passed to the callback by
`Renderer::iterative_render`, with an explicit fuel bound on the number of
loop iterations (the source loop is unbounded; `numSamples` iterations
suffice whenever the interval is positive). -/
def iterCallbacks (numSamples callbackInterval : ℕ) : ℕ → ℕ → List ℕ
  | 0, _ => []
  | fuel + 1, iteration =>
      if iteration < numSamples then
        renderStep numSamples callbackInterval iteration ::
          iterCallbacks numSamples callbackInterval fuel
            (renderStep numSamples callbackInterval iteration)
      else []

/-- Self-intersection epsilon of the renderer (`renderer::EPSILON`, 1e-12). -/
def EPSILON : ℚ := 1 / 1000000000000

/-- Firefly clamp ceiling (`renderer::FIREFLY_CLAMP`, 100.0). -/
def FIREFLY_CLAMP : ℚ := 100

/-- The intersection interface of a shape (spec §6): given a ray, a minimum
time and the shared hit record, produce the (possibly tightened) record and
whether it was updated. Deterministic, as all concrete shapes are. -/
def ShapeFn : Type := Ray → ℚ → HitRecord → HitRecord × Bool

/-- A surface material (spec §6 interface): emittance, color, BSDF and
importance sampler; the sampler consumes RNG state `σ`. -/
structure Material (σ : Type) where
  color : Vec3
  emittance : ℚ
  bsdf : Vec3 → Vec3 → Vec3 → Vec3
  sample_f : Vec3 → Vec3 → σ → Option (Vec3 × ℚ) × σ

/-- A scene object pairing a shape with a material (spec §6). -/
structure Object (σ : Type) where
  shape : ShapeFn
  material : Material σ

/-- A light (spec §6 interface): `Ambient` carries a constant color added
unconditionally; every other variant exposes
`illuminate(point, rng) -> (intensity, incident_direction, distance)`. -/
inductive Light (σ : Type) where
  | ambient : Vec3 → Light σ
  | other : (Vec3 → σ → (Vec3 × Vec3 × ℚ) × σ) → Light σ

/-- A scene (spec §6): objects, lights and an environment color map. -/
structure Scene (σ : Type) where
  objects : List (Object σ)
  lights : List (Light σ)
  environment : Vec3 → Vec3

/-- The renderer configuration fields used by the radiance estimator
(`renderer::Renderer`). -/
structure Renderer (σ : Type) where
  scene : Scene σ
  max_bounces : ℕ

/-- Linear closest-hit scan (`Renderer::get_closest_hit`): one shared
record is threaded through every object's intersection test; the object
reported is the last one whose test returned true. -/
def get_closest_hit (objects : List (Object σ)) (ray : Ray) :
    Option (HitRecord × Object σ) :=
  let res := objects.foldl
    (fun (st : HitRecord × Option (Object σ)) object =>
      let r := object.shape ray EPSILON st.1
      (r.1, if r.2 then some object else st.2))
    (hitRecordNew, none)
  match res.2 with
  | none => none
  | some o => some (res.1, o)

/-- Shadow test of `Renderer::sample_lights`:
`closest_hit.is_none() || closest_hit.unwrap() > dist_to_light`, where the
stored time `none` plays the role of `f64::INFINITY`. -/
def shadowTest (objects : List (Object σ)) (pos wi : Vec3) (dist : ℚ) : Bool :=
  match get_closest_hit objects ⟨pos, wi⟩ with
  | none => true
  | some pr =>
      match pr.1.time with
      | none => true
      | some t => decide (dist < t)

/-- Direct light sampling (`Renderer::sample_lights`): ambient lights add
`ambient ⊙ material.color` unconditionally; every other light is sampled,
shadow-tested, and on success adds `bsdf(n, wo, wi) ⊙ intensity * (wi·n)`. -/
def sample_lights (objects : List (Object σ)) (material : Material σ)
    (pos n wo : Vec3) : List (Light σ) → σ → Vec3 × σ
  | [], rng => (⟨0, 0, 0⟩, rng)
  | light :: rest, rng =>
      match light with
      | .ambient c =>
          let r := sample_lights objects material pos n wo rest rng
          (c.compMul material.color + r.1, r.2)
      | .other illuminate =>
          let out := illuminate pos rng
          let intensity := out.1.1
          let wi := out.1.2.1
          let dist_to_light := out.1.2.2
          let contrib : Vec3 :=
            if shadowTest objects pos wi dist_to_light then
              (wi.dot n) • (material.bsdf n wo wi).compMul intensity
            else ⟨0, 0, 0⟩
          let r := sample_lights objects material pos n wo rest out.2
          (contrib + r.1, r.2)

/-- Recursive radiance estimator (`Renderer::trace_ray`), written on the
remaining bounce budget `fuel = max_bounces - num_bounces`: the source's
recursion guard `num_bounces < max_bounces` is exactly `0 < fuel`. -/
def trace_ray_fuel (R : Renderer σ) (sq : ℚ → ℚ) :
    ℕ → Ray → σ → Vec3 × σ
  | fuel, ray, rng =>
    match get_closest_hit R.scene.objects ray with
    | none => (R.scene.environment ray.dir, rng)
    | some pr =>
        let h := pr.1
        let object := pr.2
        let world_pos := ray.at (h.time.getD 0)
        let material := object.material
        let wo := -(Vec3.normalize sq ray.dir)
        let color0 := material.emittance • material.color
        let dl := sample_lights R.scene.objects material world_pos h.normal wo
          R.scene.lights rng
        let color1 := color0 + dl.1
        match fuel with
        | 0 => (color1, dl.2)
        | fuel' + 1 =>
            let sf := material.sample_f h.normal wo dl.2
            match sf.1 with
            | none => (color1, sf.2)
            | some (wi, pdf) =>
                let f := material.bsdf h.normal wo wi
                let rec0 := trace_ray_fuel R sq fuel' ⟨world_pos, wi⟩ sf.2
                let indirect := |wi.dot h.normal| • ((1 / pdf) • f.compMul rec0.1)
                (⟨color1.x + min indirect.x FIREFLY_CLAMP,
                  color1.y + min indirect.y FIREFLY_CLAMP,
                  color1.z + min indirect.z FIREFLY_CLAMP⟩, rec0.2)

/-- The source's `trace_ray(ray, num_bounces, rng)`, via its bounce budget. -/
def trace_ray (R : Renderer σ) (sq : ℚ → ℚ) (ray : Ray) (num_bounces : ℕ)
    (rng : σ) : Vec3 × σ :=
  trace_ray_fuel R sq (R.max_bounces - num_bounces) ray rng

/-- A thin-lens perspective camera (`camera::ThinLensCamera`). -/
structure ThinLensCamera where
  eye : Vec3
  direction : Vec3
  up : Vec3
  fov : ℚ
  aperture : Option Aperture

/-- Thin-lens ray generation (`ThinLensCamera::cast_ray`). The tangent in
`d = cot(fov / 2)` is supplied by the parameter `tn`, the aperture-shape
sampler (whose polygon case is an unbounded rejection loop in the source)
by the parameter `sampleShape`, and square roots by `sq`. Returns the
source's `(Ray, Color, f64)` triple together with the advanced RNG state. -/
def ThinLensCamera.cast_ray (cam : ThinLensCamera) (tn sq : ℚ → ℚ)
    (sampleShape : ApertureShape → σ → (ℚ × ℚ) × σ) (x y : ℚ) (rng : σ) :
    (Ray × Vec3 × ℚ) × σ :=
  let d := (tn (cam.fov / 2))⁻¹
  let right := Vec3.normalize sq (cam.direction.cross cam.up)
  let origin := cam.eye
  let new_dir := d • cam.direction + x • right + y • cam.up
  match cam.aperture with
  | some aperture =>
      let focal_point := origin + aperture.focal_distance • Vec3.normalize sq new_dir
      let s := sampleShape aperture.shape rng
      let origin2 := origin + aperture.scale • (s.1.1 • right + s.1.2 • cam.up)
      let new_dir2 := focal_point - origin2
      ((⟨origin2, Vec3.normalize sq new_dir2⟩, ⟨1, 1, 1⟩, 1), s.2)
  | none => ((⟨origin, Vec3.normalize sq new_dir⟩, ⟨1, 1, 1⟩, 1), rng)

/-- Default surface used for (always in-range) list indexing in the
physical camera's surface walk. -/
def lensSurfaceDefault : LensSurface :=
  ⟨0, 0, ⟨0, 0, ApertureShape.circle⟩, none, 0⟩

/-- The lens-surface walk of `PhysicalCamera::cast_ray` (camera/mod.rs,
the `for i in (0..surfaces.len()).rev()` loop): the counter `k + 1` means
the current surface index is `k`, so the walk runs from the rearmost
surface (index `len - 1`) to the frontmost (index 0). `none` is an aborted
attempt (negative discriminant or aperture rejection); `some (p, dir)` is
the surviving ray state. The surface's aperture is consumed through its
scalar size `aperture.scale` exactly as the source consumes
`surface.aperture`; no other aperture field is read. -/
def traverseSurfaces (sq : ℚ → ℚ) (wavelength : ℚ) (eye direction : Vec3)
    (surfaces : List LensSurface) : ℕ → ℚ → Vec3 → Vec3 → Option (Vec3 × Vec3)
  | 0, _, p, dir => some (p, dir)
  | k + 1, axial_loc0, p, dir =>
      let surface := surfaces.getD k lensSurfaceDefault
      let axial_loc := axial_loc0 + surface.thickness
      let next_n :=
        if k = 0 then IMAGING_MEDIUM_N_D
        else ((surfaces.getD (k - 1) lensSurfaceDefault).n wavelength).getD
          IMAGING_MEDIUM_N_D
      let lens_center := (axial_loc - surface.radius) • direction + eye
      let a := dir.dot dir
      let v := p - lens_center
      let b := 2 * v.dot dir
      let c := v.dot v - surface.radius * surface.radius
      let discriminant := b * b - 4 * a * c
      if discriminant < 0 then none
      else
        let t := (-b + (if surface.radius < 0 then -1 else 1) * sq (b * b - 4 * a * c))
          / 2 / a
        let intersect := p + t • dir
        let intersect2camera := intersect - eye
        let transverse := intersect2camera - (intersect2camera.dot direction) • direction
        if transverse.dot transverse >
            surface.aperture.scale * surface.aperture.scale / 4 then none
        else
          let normal := Vec3.normalize sq (intersect - lens_center)
          let sin_theta1 := sq ((normal.cross dir).dot (normal.cross dir))
          let sin_theta2 := ((surface.n wavelength).getD IMAGING_MEDIUM_N_D) / next_n
            * sin_theta1
          let dir_norm := (normal.dot dir) • normal
          let dir_perp := dir - dir_norm
          let new_dir_perp := (sin_theta2 / sin_theta1) • dir_perp
          let dir2 := Vec3.normalize sq (dir_norm + new_dir_perp)
          traverseSurfaces sq wavelength eye direction surfaces k axial_loc intersect dir2

/-- The per-surface numeric data that `traverseSurfaces` can consume:
radius, thickness, aperture scale, refractive index and V-number —
everything except the aperture's shape (and its thin-lens focal distance). -/
def LensSurface.numeric (s : LensSurface) : ℚ × ℚ × ℚ × Option ℚ × ℚ :=
  (s.radius, s.thickness, s.aperture.scale, s.n_d, s.v_no)

/-- A glass-shaped monomial surface (`shape::MonomialSurface`):
points satisfy `y = height * sqrt(x² + z²)^exp`, `x² + z² ≤ 1`. -/
structure MonomialSurface where
  height : ℚ
  exp : ℚ
deriving DecidableEq

/-- The signed distance closure `dist` of `MonomialSurface::intersect`:
`y(t) - height * (x(t)² + z(t)²)^(exp / 2)`, with the real power supplied
by the parameter `pw`. -/
def mDist (pw : ℚ → ℚ → ℚ) (s : MonomialSurface) (ray : Ray) (t : ℚ) : ℚ :=
  let x := ray.origin.x + t * ray.dir.x
  let y := ray.origin.y + t * ray.dir.y
  let z := ray.origin.z + t * ray.dir.z
  y - s.height * pw (x * x + z * z) (s.exp / 2)

/-- The 60-iteration ternary search of `MonomialSurface::intersect` that
brackets the far end `t_max` of the root search; returns the final `l`. -/
def mTernary (pw : ℚ → ℚ → ℚ) (s : MonomialSurface) (ray : Ray)
    (maximize : Bool) : ℕ → ℚ → ℚ → ℚ
  | 0, l, _ => l
  | it + 1, l, r =>
      let ml := (2 * l + r) / 3
      let mr := (l + 2 * r) / 3
      if (maximize && decide (mDist pw s ray ml < mDist pw s ray mr)) ||
          (!maximize && decide (mDist pw s ray mr < mDist pw s ray ml)) then
        mTernary pw s ray maximize it ml r
      else
        mTernary pw s ray maximize it l mr

/-- The 60-iteration bisection of `MonomialSurface::intersect`; returns the
final `(l, r)` pair (the source reads `r`). -/
def mBisect (pw : ℚ → ℚ → ℚ) (s : MonomialSurface) (ray : Ray)
    (maximize : Bool) : ℕ → ℚ → ℚ → ℚ × ℚ
  | 0, l, r => (l, r)
  | it + 1, l, r =>
      let m := (l + r) / 2
      if decide (0 ≤ mDist pw s ray m) == maximize then
        mBisect pw s ray maximize it l m
      else
        mBisect pw s ray maximize it m r

/-- Direct embedding of `MonomialSurface::intersect`.  Mirrors the source
control flow: bracket a sign change with ternary search, bisect for the
root `r`, reject if `r > record.time` (note: not on equality), reject if
outside the unit disc in x/z, otherwise write the record and return true. -/
def MonomialSurface.intersect (pw : ℚ → ℚ → ℚ) (sq : ℚ → ℚ)
    (s : MonomialSurface) (ray : Ray) (t_min : ℚ) (record : HitRecord) :
    HitRecord × Bool :=
  let maximize := decide (mDist pw s ray t_min < 0)
  let t_max := mTernary pw s ray maximize 60 t_min 10000
  if (decide (mDist pw s ray t_min < 0)) == (decide (mDist pw s ray t_max < 0))
  then (record, false)
  else
    let lr := mBisect pw s ray maximize 60 t_min t_max
    let r := lr.2
    if (match record.time with
        | none => false
        | some t => decide (t < r)) then (record, false)
    else
      let pos := ray.at r
      if pos.x * pos.x + pos.z * pos.z > 1 then (record, false)
      else
        let normal0 := Vec3.normalize sq
          ⟨s.height * 4 * pos.x * (pos.x * pos.x + pos.z * pos.z),
            -1,
            s.height * 4 * pos.z * (pos.x * pos.x + pos.z * pos.z)⟩
        let normal := if normal0.dot ray.dir > 0 then -normal0 else normal0
        (⟨some r, normal⟩, true)

/-- A contract-satisfying shape with a fixed intersection time and normal:
it tightens the record exactly when the time is beyond `t_min` and strictly
closer than the stored time. Used as a concrete instance of the spec §6
shape contract. -/
def sentinelShape (t : ℚ) (n : Vec3) : ShapeFn :=
  fun _ t_min record =>
    if t_min ≤ t ∧ optLt t record.time then (⟨some t, n⟩, true)
    else (record, false)

/-- Example single lens used by concrete witnesses: `r1 = r2 = 2`, zero
thickness, `n_d = 3/2`, giving focal length exactly 2 and, at object
distance 9, discriminant exactly 9. -/
def lensEx : SingleLens := ⟨2, 2, ⟨1, 0, ApertureShape.circle⟩, 0, 3 / 2, 10⟩

/-- Constant square-root stand-in, correct for arguments whose root is 3. -/
def sqThree : ℚ → ℚ := fun _ => 3

/-- The spec §6 / §3 intersection contract specialized to a shape with one
fixed candidate time `t` on the given ray: the record is mutated (to that
time) exactly on a strictly closer valid hit, and left untouched otherwise,
with the return value reporting which happened. -/
def IntersectsAt (f : ShapeFn) (ray : Ray) (t : ℚ) : Prop :=
  ∀ t_min record,
    ((t_min ≤ t ∧ optLt t record.time) →
      (f ray t_min record).2 = true ∧ (f ray t_min record).1.time = some t) ∧
    (¬(t_min ≤ t ∧ optLt t record.time) → f ray t_min record = (record, false))

/-- Constant square-root stand-in, correct for arguments whose root is 1. -/
def sqOne : ℚ → ℚ := fun _ => 1

/-- Constant square-root stand-in, correct for arguments whose root is 2. -/
def sqTwo : ℚ → ℚ := fun _ => 2

/-- Constant tangent stand-in with value 1 (any positive value works for
the determinism statement about the thin-lens camera). -/
def tanOne : ℚ → ℚ := fun _ => 1

/-- Constant real-power stand-in with value 0, correct for the base 0 that
the concrete monomial-surface configuration below always produces. -/
def pwZero : ℚ → ℚ → ℚ := fun _ _ => 0

/-- Aperture-shape sampler stand-in returning the origin. -/
def sampleZero : ApertureShape → Unit → (ℚ × ℚ) × Unit := fun _ r => ((0, 0), r)

/-- A purely diffuse-free example material: black BSDF, no scattering. -/
def matEx : Material Unit :=
  ⟨⟨1, 2, 3⟩, 2, fun _ _ _ => ⟨0, 0, 0⟩, fun _ _ r => (none, r)⟩

/-- An example material whose BSDF is constantly white. -/
def matOne : Material Unit :=
  ⟨⟨1, 1, 1⟩, 0, fun _ _ _ => ⟨1, 1, 1⟩, fun _ _ r => (none, r)⟩

/-- An example object: a contract-satisfying shape hitting at time 1. -/
def objEx : Object Unit := ⟨sentinelShape 1 ⟨0, 0, 1⟩, matEx⟩

/-- An example ray along the negative z axis. -/
def rayEx : Ray := ⟨⟨0, 0, 0⟩, ⟨0, 0, -1⟩⟩

/-- An example renderer: one object, no lights, black environment, zero
bounce budget. -/
def rendEx : Renderer Unit := ⟨⟨[objEx], [], fun _ => ⟨0, 0, 0⟩⟩, 0⟩

/-- An example illumination function: unit intensity, incident direction
(0,0,-1), distance 5, independent of the query point and RNG. -/
def illumEx : Vec3 → Unit → (Vec3 × Vec3 × ℚ) × Unit :=
  fun _ r => ((⟨1, 1, 1⟩, ⟨0, 0, -1⟩, 5), r)

/-- The example non-ambient light built from `illumEx`. -/
def lightEx : Light Unit := .other illumEx

/-- The example monomial surface: height 1, exponent 4 (the case the
source's normal formula is written for). -/
def monoEx : MonomialSurface := ⟨1, 4⟩

/-- A ray on the monomial surface's axis pointing straight down: it meets
the surface at the vertex, at time exactly 2, and its x/z coordinates are
identically zero, so the embedded `dist` closure is `2 - t`. -/
def rayDown : Ray := ⟨⟨0, 2, 0⟩, ⟨0, -1, 0⟩⟩

/-- A lens surface with a square aperture of scalar size 5 and radius of
curvature 3, as consumed by the physical camera's surface walk. -/
def surfSq : LensSurface := ⟨3, 1, ⟨5, 0, ApertureShape.square⟩, none, 0⟩

/-- The same lens surface with a circular aperture. -/
def surfCirc : LensSurface := ⟨3, 1, ⟨5, 0, ApertureShape.circle⟩, none, 0⟩

/-- The thin-lens example camera of the spec's determinism property:
eye (0,0,10), direction (0,0,-1), up (0,1,0), no aperture. -/
def camEx : ThinLensCamera := ⟨⟨0, 0, 10⟩, ⟨0, 0, -1⟩, ⟨0, 1, 0⟩, 1, none⟩

theorem iterCallbacks_stop (ns k fuel it : ℕ) (h : ¬ it < ns) :
    iterCallbacks ns k fuel it = [] := by
  cases fuel with
  | zero => rfl
  | succ f => simp [iterCallbacks, h]

theorem iterCallbacks_getLast (ns k : ℕ) (hk : 1 ≤ k) :
    ∀ fuel it, it < ns → ns ≤ it + fuel →
      (iterCallbacks ns k fuel it).getLast? = some ns := by
  intro fuel
  induction fuel with
  | zero => intro it h1 h2; omega
  | succ f ih =>
    intro it h1 h2
    simp only [iterCallbacks, if_pos h1]
    have hlo : it < renderStep ns k it := by
      have h3 : 1 ≤ min (ns - it) k := le_min (by omega) hk
      unfold renderStep; omega
    have hhi : renderStep ns k it ≤ ns := by
      have h4 := Nat.min_le_left (ns - it) k
      unfold renderStep; omega
    by_cases hlt : renderStep ns k it < ns
    · have hrest := ih (renderStep ns k it) hlt (by omega)
      cases hrec : iterCallbacks ns k f (renderStep ns k it) with
      | nil => rw [hrec] at hrest; simp at hrest
      | cons a l =>
          rw [hrec] at hrest
          rw [List.getLast?_cons_cons]
          exact hrest
    · have heq : renderStep ns k it = ns := by omega
      rw [iterCallbacks_stop ns k f _ hlt]
      simp [heq]

/-- Claim C10: with `num_samples ≥ 1`, `iterative_render(k, callback)`
terminates exactly when `k ≥ 1`.  For `k ≥ 1` the loop finishes within
`num_samples` iterations and the final callback receives
`completed_samples = num_samples`; for `k = 0` the chunk size
`min(num_samples - iteration, 0)` is zero, so the loop body leaves the
iteration count unchanged and the loop guard holds after every number of
iterations — the call never returns. -/
theorem c10_iterative_render_termination (numSamples callbackInterval : ℕ)
    (hns : 1 ≤ numSamples) :
    (1 ≤ callbackInterval →
      (iterCallbacks numSamples callbackInterval numSamples 0).getLast? =
        some numSamples) ∧
    (callbackInterval = 0 →
      ∀ m, (renderStep numSamples 0)^[m] 0 = 0 ∧
        (renderStep numSamples 0)^[m] 0 < numSamples) := by
  constructor
  · intro hk
    exact iterCallbacks_getLast _ _ hk numSamples 0 (by omega) (by omega)
  · rintro rfl m
    have hz : (renderStep numSamples 0)^[m] 0 = 0 := by
      induction m with
      | zero => rfl
      | succ mm ih =>
          rw [Function.iterate_succ_apply', ih]
          simp [renderStep]
    exact ⟨hz, by omega⟩

theorem c10_iterative_render_termination_witness :
    1 ≤ 2 ∧
    ((1 ≤ 1 → (iterCallbacks 2 1 2 0).getLast? = some 2) ∧
      (1 = 0 → ∀ m, (renderStep 2 0)^[m] 0 = 0 ∧ (renderStep 2 0)^[m] 0 < 2)) :=
  ⟨by decide, c10_iterative_render_termination 2 1 (by decide)⟩

/-- Claim C7: every lens type returns a fixed surface count from
`lens_system` (two for `SingleLens`, three for `AchromaticDoublet`), and
for any two object distances the returned systems agree on every field of
every surface except the terminal surface's thickness: radii of curvature,
apertures (shape and scale), refractive indices, V-numbers, and all
non-terminal thicknesses are identical. -/
theorem c7_lens_system_shape_fixed (sq : ℚ → ℚ) (L : SingleLens)
    (M : AchromaticDoublet) (d1 d2 : ℚ) :
    (L.lens_system sq d1).surfaces.length = 2 ∧
    (M.lens_system sq d1).surfaces.length = 3 ∧
    (L.lens_system sq d1).shapeData = (L.lens_system sq d2).shapeData ∧
    (M.lens_system sq d1).shapeData = (M.lens_system sq d2).shapeData :=
  ⟨rfl, rfl, rfl, rfl⟩

/-- Claim C9: for every `SingleLens` with positive focal length and every
object distance, the sensor-facing surface of the returned system has
thickness `image_distance - thickness / 2`, and that gap is at least 0.2:
the selected image distance never falls below the minimum clearance
`thickness / 2 + 0.2`. -/
theorem c9_sensor_gap_positive (sq : ℚ → ℚ) (L : SingleLens) (d : ℚ)
    (_hf : 0 < L.focal_length) :
    ((L.lens_system sq d).surfaces.getLast?.map (fun s => s.thickness)) =
      some (L.image_distance sq d - L.thickness / 2) ∧
    1 / 5 ≤ L.image_distance sq d - L.thickness / 2 := by
  constructor
  · rfl
  · have hmin : L.min_distance ≤ L.image_distance sq d := by
      unfold SingleLens.image_distance
      by_cases h1 : L.discr d < 0
      · simp [h1]
      · by_cases h2 : L.min_distance < L.opt1 sq d
        · simp [h1, h2]; linarith
        · by_cases h3 : L.min_distance < L.opt2 sq d
          · simp [h1, h2, h3]; linarith
          · simp [h1, h2, h3]
    unfold SingleLens.min_distance at hmin
    linarith

theorem c9_sensor_gap_positive_witness :
    (0 : ℚ) < lensEx.focal_length ∧
    ((lensEx.lens_system sqThree 9).surfaces.getLast?.map (fun s => s.thickness)) =
      some (lensEx.image_distance sqThree 9 - lensEx.thickness / 2) ∧
    1 / 5 ≤ lensEx.image_distance sqThree 9 - lensEx.thickness / 2 := by
  have hf : (0 : ℚ) < lensEx.focal_length := by
    norm_num [lensEx, SingleLens.focal_length]
  exact ⟨hf, c9_sensor_gap_positive sqThree lensEx 9 hf⟩

/-- Claim C4: `SingleLens::lens_system` solves the image-distance quadratic
`x² - o·x + f·o = 0` (the quadratic implied by `1/object + 1/image = 1/f`
with the requested distance clamped into the supported range) and selects
an image distance that is a genuine root strictly exceeding the clearance
`thickness / 2 + 0.2`; when the discriminant is negative, or when neither
root exceeds the clearance, it uses exactly the clearance — so it always
returns a two-surface `LensSystem` whose terminal thickness realizes the
selected image distance instead of failing.  The hypothesis `hsq` states
that the supplied square-root function is correct on the one value the
source takes a square root of. -/
theorem c4_image_distance_policy (sq : ℚ → ℚ) (L : SingleLens) (d : ℚ)
    (hsq : 0 ≤ L.discr d → sq (L.discr d) * sq (L.discr d) = L.discr d) :
    (L.discr d < 0 → L.image_distance sq d = L.min_distance) ∧
    (0 ≤ L.discr d →
      (L.min_distance < L.image_distance sq d ∧
        L.image_distance sq d * L.image_distance sq d -
          L.odist d * L.image_distance sq d + L.focal_length * L.odist d = 0) ∨
      (L.image_distance sq d = L.min_distance ∧
        L.opt1 sq d ≤ L.min_distance ∧ L.opt2 sq d ≤ L.min_distance)) ∧
    (L.lens_system sq d).surfaces =
      [⟨L.r1, L.thickness, L.aperture, some L.n_d, L.v_no⟩,
        ⟨-L.r2, L.image_distance sq d - L.thickness / 2, L.aperture, none, 0⟩] := by
  refine ⟨?_, ?_, rfl⟩
  · intro hneg
    unfold SingleLens.image_distance
    simp [hneg]
  · intro hpos
    have hs := hsq hpos
    have hd : L.discr d = L.odist d * L.odist d - 4 * (L.focal_length * L.odist d) := by
      unfold SingleLens.discr; ring
    have hnot : ¬ L.discr d < 0 := not_lt.mpr hpos
    unfold SingleLens.image_distance
    by_cases h2 : L.min_distance < L.opt1 sq d
    · left
      simp only [if_neg hnot, if_pos h2]
      refine ⟨h2, ?_⟩
      unfold SingleLens.opt1
      linear_combination (1 / 4 : ℚ) * hs + (1 / 4 : ℚ) * hd
    · by_cases h3 : L.min_distance < L.opt2 sq d
      · left
        simp only [if_neg hnot, if_neg h2, if_pos h3]
        refine ⟨h3, ?_⟩
        unfold SingleLens.opt2
        linear_combination (1 / 4 : ℚ) * hs + (1 / 4 : ℚ) * hd
      · right
        simp only [if_neg hnot, if_neg h2, if_neg h3]
        exact ⟨by trivial, not_lt.mp h2, not_lt.mp h3⟩

theorem c4_image_distance_policy_witness :
    (0 ≤ lensEx.discr 9 →
      sqThree (lensEx.discr 9) * sqThree (lensEx.discr 9) = lensEx.discr 9) ∧
    (0 ≤ lensEx.discr 9 →
      (lensEx.min_distance < lensEx.image_distance sqThree 9 ∧
        lensEx.image_distance sqThree 9 * lensEx.image_distance sqThree 9 -
          lensEx.odist 9 * lensEx.image_distance sqThree 9 +
          lensEx.focal_length * lensEx.odist 9 = 0) ∨
      (lensEx.image_distance sqThree 9 = lensEx.min_distance ∧
        lensEx.opt1 sqThree 9 ≤ lensEx.min_distance ∧
        lensEx.opt2 sqThree 9 ≤ lensEx.min_distance)) := by
  have hd9 : lensEx.discr 9 = 9 := by
    norm_num [lensEx, SingleLens.discr, SingleLens.odist, SingleLens.focal_length,
      max_def]
  have hsq : 0 ≤ lensEx.discr 9 →
      sqThree (lensEx.discr 9) * sqThree (lensEx.discr 9) = lensEx.discr 9 := by
    intro h
    rw [hd9]
    norm_num [sqThree]
  exact ⟨hsq, (c4_image_distance_policy sqThree lensEx 9 hsq).2.1⟩

theorem Vec3.add_def (a b : Vec3) :
    a + b = ⟨a.x + b.x, a.y + b.y, a.z + b.z⟩ := rfl

theorem Vec3.sub_def (a b : Vec3) :
    a - b = ⟨a.x - b.x, a.y - b.y, a.z - b.z⟩ := rfl

theorem Vec3.neg_def (a : Vec3) : -a = ⟨-a.x, -a.y, -a.z⟩ := rfl

theorem Vec3.smul_def (c : ℚ) (a : Vec3) :
    c • a = ⟨c * a.x, c * a.y, c * a.z⟩ := rfl

theorem Vec3.add_zero_vec (v : Vec3) : v + ⟨0, 0, 0⟩ = v := by
  cases v
  simp [Vec3.add_def]

theorem sentinel_intersectsAt (t : ℚ) (n : Vec3) (ray : Ray) :
    IntersectsAt (sentinelShape t n) ray t := by
  intro t_min record
  constructor
  · intro hc
    unfold sentinelShape
    rw [if_pos hc]
    exact ⟨rfl, rfl⟩
  · intro hc
    unfold sentinelShape
    rw [if_neg hc]

/-- Claim C3: `trace_ray` adds the indirect term only when the current
bounce depth is strictly less than `max_bounces`; at or beyond the limit
(in particular always, when `max_bounces = 0`), a ray that hits an object
yields exactly the emitted term `emittance • color` plus the direct
lighting term, with no recursion and no indirect contribution. -/
theorem c3_no_indirect_at_depth_limit (σ : Type) (R : Renderer σ)
    (sq : ℚ → ℚ) (ray : Ray) (num_bounces : ℕ) (rng : σ) (h : HitRecord)
    (obj : Object σ)
    (hhit : get_closest_hit R.scene.objects ray = some (h, obj))
    (hnb : R.max_bounces ≤ num_bounces) :
    trace_ray R sq ray num_bounces rng =
      (obj.material.emittance • obj.material.color +
        (sample_lights R.scene.objects obj.material (ray.at (h.time.getD 0))
          h.normal (-(Vec3.normalize sq ray.dir)) R.scene.lights rng).1,
       (sample_lights R.scene.objects obj.material (ray.at (h.time.getD 0))
          h.normal (-(Vec3.normalize sq ray.dir)) R.scene.lights rng).2) := by
  unfold trace_ray
  rw [Nat.sub_eq_zero_of_le hnb]
  simp only [trace_ray_fuel, hhit]

theorem c3_no_indirect_at_depth_limit_witness :
    get_closest_hit rendEx.scene.objects rayEx =
      some (⟨some 1, ⟨0, 0, 1⟩⟩, objEx) ∧
    rendEx.max_bounces ≤ 0 ∧
    trace_ray rendEx sqOne rayEx 0 () =
      (objEx.material.emittance • objEx.material.color +
        (sample_lights rendEx.scene.objects objEx.material
          (rayEx.at (((⟨some 1, ⟨0, 0, 1⟩⟩ : HitRecord).time).getD 0))
          (⟨some 1, ⟨0, 0, 1⟩⟩ : HitRecord).normal
          (-(Vec3.normalize sqOne rayEx.dir)) rendEx.scene.lights ()).1,
       (sample_lights rendEx.scene.objects objEx.material
          (rayEx.at (((⟨some 1, ⟨0, 0, 1⟩⟩ : HitRecord).time).getD 0))
          (⟨some 1, ⟨0, 0, 1⟩⟩ : HitRecord).normal
          (-(Vec3.normalize sqOne rayEx.dir)) rendEx.scene.lights ()).2) := by
  have hcond : EPSILON ≤ (1 : ℚ) ∧ optLt 1 hitRecordNew.time :=
    ⟨by norm_num [EPSILON], by simp [optLt, optLtB, hitRecordNew]⟩
  have hhit : get_closest_hit rendEx.scene.objects rayEx =
      some (⟨some 1, ⟨0, 0, 1⟩⟩, objEx) := by
    simp [get_closest_hit, rendEx, objEx, sentinelShape, hcond]
  exact ⟨hhit, Nat.le_refl 0,
    c3_no_indirect_at_depth_limit Unit rendEx sqOne rayEx 0 () _ _ hhit
      (Nat.le_refl 0)⟩

/-- Claim C6: against a two-object scene whose shapes satisfy the
intersection contract, if object B's intersection time is strictly less
than object A's (and valid, i.e. beyond the renderer's epsilon), then
`get_closest_hit` returns object B with B's hit time in the record — in
both scan orders. -/
theorem c6_closest_hit_order_independent (σ : Type) (fA fB : ShapeFn)
    (mA mB : Material σ) (ray : Ray) (tA tB : ℚ)
    (hA : IntersectsAt fA ray tA) (hB : IntersectsAt fB ray tB)
    (heps : EPSILON ≤ tB) (hlt : tB < tA) :
    ((get_closest_hit [⟨fA, mA⟩, ⟨fB, mB⟩] ray).map (fun pr => pr.1.time) =
        some (some tB) ∧
      (get_closest_hit [⟨fA, mA⟩, ⟨fB, mB⟩] ray).map (fun pr => pr.2) =
        some ⟨fB, mB⟩) ∧
    ((get_closest_hit [⟨fB, mB⟩, ⟨fA, mA⟩] ray).map (fun pr => pr.1.time) =
        some (some tB) ∧
      (get_closest_hit [⟨fB, mB⟩, ⟨fA, mA⟩] ray).map (fun pr => pr.2) =
        some ⟨fB, mB⟩) := by
  have hlt0 : optLt tB hitRecordNew.time := by simp [optLt, optLtB, hitRecordNew]
  constructor
  · by_cases hta : EPSILON ≤ tA
    · obtain ⟨ha2, hatime⟩ := (hA EPSILON hitRecordNew).1
        ⟨hta, by simp [optLt, optLtB, hitRecordNew]⟩
      obtain ⟨hb2, hbtime⟩ := (hB EPSILON (fA ray EPSILON hitRecordNew).1).1
        ⟨heps, by rw [hatime]; simp [optLt, optLtB, hlt]⟩
      simp only [get_closest_hit, List.foldl]
      simp only [ha2, hb2, if_true]
      simp [hbtime]
    · have haeq := (hA EPSILON hitRecordNew).2 (fun hc => hta hc.1)
      obtain ⟨hb2, hbtime⟩ := (hB EPSILON hitRecordNew).1 ⟨heps, hlt0⟩
      simp only [get_closest_hit, List.foldl]
      rw [haeq]
      simp only [hb2, if_true]
      simp [hbtime]
  · obtain ⟨hb2, hbtime⟩ := (hB EPSILON hitRecordNew).1 ⟨heps, hlt0⟩
    have hacond : ¬(EPSILON ≤ tA ∧ optLt tA (fB ray EPSILON hitRecordNew).1.time) := by
      rintro ⟨-, hc⟩
      rw [hbtime] at hc
      simp [optLt, optLtB] at hc
      exact absurd hc (not_lt.mpr (le_of_lt hlt))
    have haeq := (hA EPSILON (fB ray EPSILON hitRecordNew).1).2 hacond
    simp only [get_closest_hit, List.foldl]
    simp only [hb2, if_true]
    rw [haeq]
    simp [hbtime]

theorem c6_closest_hit_order_independent_witness :
    IntersectsAt (sentinelShape 1 ⟨1, 0, 0⟩) rayEx 1 ∧
    IntersectsAt (sentinelShape (1 / 2) ⟨0, 1, 0⟩) rayEx (1 / 2) ∧
    EPSILON ≤ (1 / 2 : ℚ) ∧ (1 / 2 : ℚ) < 1 ∧
    (((get_closest_hit [⟨sentinelShape 1 ⟨1, 0, 0⟩, matEx⟩,
          ⟨sentinelShape (1 / 2) ⟨0, 1, 0⟩, matOne⟩] rayEx).map
            (fun pr => pr.1.time) = some (some (1 / 2)) ∧
        (get_closest_hit [⟨sentinelShape 1 ⟨1, 0, 0⟩, matEx⟩,
          ⟨sentinelShape (1 / 2) ⟨0, 1, 0⟩, matOne⟩] rayEx).map
            (fun pr => pr.2) = some ⟨sentinelShape (1 / 2) ⟨0, 1, 0⟩, matOne⟩) ∧
      ((get_closest_hit [⟨sentinelShape (1 / 2) ⟨0, 1, 0⟩, matOne⟩,
          ⟨sentinelShape 1 ⟨1, 0, 0⟩, matEx⟩] rayEx).map
            (fun pr => pr.1.time) = some (some (1 / 2)) ∧
        (get_closest_hit [⟨sentinelShape (1 / 2) ⟨0, 1, 0⟩, matOne⟩,
          ⟨sentinelShape 1 ⟨1, 0, 0⟩, matEx⟩] rayEx).map
            (fun pr => pr.2) = some ⟨sentinelShape (1 / 2) ⟨0, 1, 0⟩, matOne⟩)) := by
  refine ⟨sentinel_intersectsAt 1 ⟨1, 0, 0⟩ rayEx,
    sentinel_intersectsAt (1 / 2) ⟨0, 1, 0⟩ rayEx,
    by norm_num [EPSILON], by norm_num, ?_⟩
  exact c6_closest_hit_order_independent Unit
    (sentinelShape 1 ⟨1, 0, 0⟩) (sentinelShape (1 / 2) ⟨0, 1, 0⟩) matEx matOne
    rayEx 1 (1 / 2)
    (sentinel_intersectsAt 1 ⟨1, 0, 0⟩ rayEx)
    (sentinel_intersectsAt (1 / 2) ⟨0, 1, 0⟩ rayEx)
    (by norm_num [EPSILON]) (by norm_num)

/-- Claim C2 is refuted at this input: in `sample_lights` the cosine
factor is the raw `wi·n` with no clamping.  With no occluders, a white
constant BSDF, unit light intensity, surface normal (0,0,1) and incident
direction (0,0,-1) (the light on the far side of the surface, `wi·n = -1`),
the code adds the negative contribution (-1,-1,-1), whereas the claimed
formula `bsdf ⊙ intensity * max(0, wi·n)` adds (0,0,0). -/
theorem c2_counterexample :
    (sample_lights ([] : List (Object Unit)) matOne ⟨0, 0, 0⟩ ⟨0, 0, 1⟩
        ⟨0, 0, 1⟩ [Light.other illumEx] ()).1 = ⟨-1, -1, -1⟩ ∧
    (max 0 ((⟨0, 0, -1⟩ : Vec3).dot ⟨0, 0, 1⟩)) •
        (matOne.bsdf ⟨0, 0, 1⟩ ⟨0, 0, 1⟩ ⟨0, 0, -1⟩).compMul ⟨1, 1, 1⟩ =
      (⟨0, 0, 0⟩ : Vec3) ∧
    (⟨-1, -1, -1⟩ : Vec3) ≠ ⟨0, 0, 0⟩ := by
  refine ⟨?_, ?_, ?_⟩
  · simp only [sample_lights, illumEx]
    rw [if_pos (by simp [shadowTest, get_closest_hit, List.foldl])]
    rw [Vec3.add_zero_vec]
    simp [Vec3.dot, Vec3.compMul, Vec3.smul_def, matOne]
  · have hmax : max (0 : ℚ) ((⟨0, 0, -1⟩ : Vec3).dot ⟨0, 0, 1⟩) = 0 := by
      simp [Vec3.dot]
    rw [hmax]
    simp [Vec3.smul_def, Vec3.compMul, matOne]
  · intro hc
    have := congrArg Vec3.x hc
    norm_num at this

/-- Claim C2 (amended): for a non-ambient light, when the shadow test
passes the contribution added by `sample_lights` is
`bsdf(n, wo, wi) ⊙ intensity * (wi·n)` — the raw cosine with no clamping,
so a light on the far side of the surface (`wi·n < 0`) contributes a
negative amount rather than nothing; when the shadow test fails nothing is
added.  Stated for a scene with the one light in question. -/
theorem c2_cosine_unclamped (σ : Type) (objects : List (Object σ))
    (illuminate : Vec3 → σ → (Vec3 × Vec3 × ℚ) × σ) (mat : Material σ)
    (pos n wo : Vec3) (rng : σ) (intensity wi : Vec3) (dist : ℚ) (rng' : σ)
    (hout : illuminate pos rng = ((intensity, wi, dist), rng')) :
    sample_lights objects mat pos n wo [Light.other illuminate] rng =
      ((if shadowTest objects pos wi dist then
          (wi.dot n) • (mat.bsdf n wo wi).compMul intensity
        else ⟨0, 0, 0⟩), rng') := by
  simp only [sample_lights, hout]
  rw [Vec3.add_zero_vec]

theorem c2_cosine_unclamped_witness :
    illumEx ⟨0, 0, 0⟩ () = ((⟨1, 1, 1⟩, ⟨0, 0, -1⟩, 5), ()) ∧
    sample_lights ([] : List (Object Unit)) matOne ⟨0, 0, 0⟩ ⟨0, 0, 1⟩
        ⟨0, 0, 1⟩ [Light.other illumEx] () =
      ((if shadowTest ([] : List (Object Unit)) ⟨0, 0, 0⟩ ⟨0, 0, -1⟩ 5 then
          ((⟨0, 0, -1⟩ : Vec3).dot ⟨0, 0, 1⟩) •
            (matOne.bsdf ⟨0, 0, 1⟩ ⟨0, 0, 1⟩ ⟨0, 0, -1⟩).compMul ⟨1, 1, 1⟩
        else ⟨0, 0, 0⟩), ()) :=
  ⟨rfl, c2_cosine_unclamped Unit [] illumEx matOne ⟨0, 0, 0⟩ ⟨0, 0, 1⟩
    ⟨0, 0, 1⟩ () ⟨1, 1, 1⟩ ⟨0, 0, -1⟩ 5 () rfl⟩

/-- Claim C8: the thin-lens camera with eye (0,0,10), direction (0,0,-1),
up (0,1,0) and no aperture configured is deterministic at the screen
center: `cast_ray(0, 0, rng)` yields direction exactly (0,0,-1) for every
RNG state and every aperture sampler.  The field of view enters only
through `tan(fov / 2)` (for the claim's `fov = π/6` this is `tan(π/12) >
0`), abstracted by the hypothesis `htan`; `hsq` states the square-root
parameter is correct on the one squared norm taken. -/
theorem c8_thin_lens_deterministic (σ : Type)
    (sampleShape : ApertureShape → σ → (ℚ × ℚ) × σ) (tn sq : ℚ → ℚ)
    (fov : ℚ) (rng : σ)
    (htan : 0 < tn (fov / 2))
    (hsq : sq ((tn (fov / 2))⁻¹ * (tn (fov / 2))⁻¹) = (tn (fov / 2))⁻¹) :
    (ThinLensCamera.cast_ray ⟨⟨0, 0, 10⟩, ⟨0, 0, -1⟩, ⟨0, 1, 0⟩, fov, none⟩
        tn sq sampleShape 0 0 rng).1.1.dir = ⟨0, 0, -1⟩ := by
  have hdne : (tn (fov / 2))⁻¹ ≠ 0 := ne_of_gt (inv_pos.mpr htan)
  unfold ThinLensCamera.cast_ray
  simp only []
  have hnd : (tn (fov / 2))⁻¹ • (⟨0, 0, -1⟩ : Vec3) +
      (0 : ℚ) • Vec3.normalize sq ((⟨0, 0, -1⟩ : Vec3).cross ⟨0, 1, 0⟩) +
      (0 : ℚ) • (⟨0, 1, 0⟩ : Vec3) = ⟨0, 0, -(tn (fov / 2))⁻¹⟩ := by
    simp [Vec3.smul_def, Vec3.add_def]
  rw [hnd]
  unfold Vec3.normalize
  have harg : (⟨0, 0, -(tn (fov / 2))⁻¹⟩ : Vec3).dot ⟨0, 0, -(tn (fov / 2))⁻¹⟩ =
      (tn (fov / 2))⁻¹ * (tn (fov / 2))⁻¹ := by
    simp [Vec3.dot]
  rw [harg, hsq]
  simp [Vec3.smul_def]
  field_simp

theorem c8_thin_lens_deterministic_witness :
    0 < tanOne ((1 : ℚ) / 2) ∧
    sqOne ((tanOne ((1 : ℚ) / 2))⁻¹ * (tanOne ((1 : ℚ) / 2))⁻¹) =
      (tanOne ((1 : ℚ) / 2))⁻¹ ∧
    (ThinLensCamera.cast_ray ⟨⟨0, 0, 10⟩, ⟨0, 0, -1⟩, ⟨0, 1, 0⟩, 1, none⟩
        tanOne sqOne sampleZero 0 0 ()).1.1.dir = ⟨0, 0, -1⟩ := by
  have h1 : (0 : ℚ) < tanOne (1 / 2) := by norm_num [tanOne]
  have h2 : sqOne ((tanOne ((1 : ℚ) / 2))⁻¹ * (tanOne ((1 : ℚ) / 2))⁻¹) =
      (tanOne ((1 : ℚ) / 2))⁻¹ := by norm_num [sqOne, tanOne]
  exact ⟨h1, h2, c8_thin_lens_deterministic Unit sampleZero tanOne sqOne 1 () h1 h2⟩

theorem numeric_getD_congr (s1 s2 : List LensSurface)
    (h : s1.map LensSurface.numeric = s2.map LensSurface.numeric) (i : ℕ) :
    LensSurface.numeric (s1.getD i lensSurfaceDefault) =
      LensSurface.numeric (s2.getD i lensSurfaceDefault) := by
  have h1 := List.getD_map (l := s1) (n := i) LensSurface.numeric
    (d := lensSurfaceDefault)
  have h2 := List.getD_map (l := s2) (n := i) LensSurface.numeric
    (d := lensSurfaceDefault)
  rw [← h1, ← h2, h]

theorem n_congr (a b : LensSurface) (hnd : a.n_d = b.n_d) (hv : a.v_no = b.v_no)
    (w : ℚ) : a.n w = b.n w := by
  unfold LensSurface.n
  rw [hnd, hv]

/-- Claim C1 is refuted at this input: the per-surface test of the
physical camera's surface walk is only the radius bound
`axial_radius² ≤ (aperture/2)²`, never a shape containment test.  One
surface of radius 3, axial thickness 1, aperture size 5, square aperture
shape; camera at the origin looking along (0,0,-1); ray from (2,2,5) in
direction (0,0,-1).  The ray meets the surface sphere at (2,2,1), whose
transverse offset from the axis is (2,2), i.e. (4/5, 4/5) normalized by
the aperture radius 5/2: inside the square aperture shape (which the claim
says must therefore be accepted) but outside the circular radius bound.
The walk rejects the ray — and behaves identically with the circular
shape, so the non-circular shape does not change which rays are rejected. -/
theorem c1_counterexample :
    traverseSurfaces sqTwo 1 ⟨0, 0, 0⟩ ⟨0, 0, -1⟩ [surfSq] 1 0 ⟨2, 2, 5⟩
        ⟨0, 0, -1⟩ = none ∧
    traverseSurfaces sqTwo 1 ⟨0, 0, 0⟩ ⟨0, 0, -1⟩ [surfCirc] 1 0 ⟨2, 2, 5⟩
        ⟨0, 0, -1⟩ = none ∧
    ApertureShape.containsPoint ApertureShape.square (4 / 5) (4 / 5) = true ∧
    ApertureShape.containsPoint ApertureShape.circle (4 / 5) (4 / 5) = false := by
  refine ⟨?_, ?_, ?_, ?_⟩
  · norm_num [traverseSurfaces, surfSq, sqTwo, Vec3.dot, Vec3.add_def,
      Vec3.sub_def, Vec3.smul_def, Vec3.neg_def, lensSurfaceDefault]
  · norm_num [traverseSurfaces, surfCirc, sqTwo, Vec3.dot, Vec3.add_def,
      Vec3.sub_def, Vec3.smul_def, Vec3.neg_def, lensSurfaceDefault]
  · simp only [ApertureShape.containsPoint, decide_eq_true_eq]
    rw [max_self, abs_of_pos (by norm_num : (0 : ℚ) < 4 / 5)]
    norm_num
  · simp only [ApertureShape.containsPoint, decide_eq_false_iff_not]
    norm_num

/-- Claim C1 (amended): during the physical camera's surface walk the
intersection point's transverse offset is tested only against the scalar
radius bound `(aperture/2)²`; the aperture's shape is never consulted, so
two lens systems that agree on all numeric surface data (radius,
thickness, aperture scale, refractive index, V-number) produce identical
traversal outcomes for every ray regardless of their aperture shapes. -/
theorem c1_shape_ignored (sq : ℚ → ℚ) (wavelength : ℚ) (eye direction : Vec3)
    (s1 s2 : List LensSurface)
    (h : s1.map LensSurface.numeric = s2.map LensSurface.numeric) :
    ∀ k axial_loc p dir,
      traverseSurfaces sq wavelength eye direction s1 k axial_loc p dir =
        traverseSurfaces sq wavelength eye direction s2 k axial_loc p dir := by
  intro k
  induction k with
  | zero => intro axial_loc p dir; rfl
  | succ kk ih =>
    intro axial_loc p dir
    have hk := numeric_getD_congr s1 s2 h kk
    have hk1 := numeric_getD_congr s1 s2 h (kk - 1)
    simp only [LensSurface.numeric, Prod.mk.injEq] at hk hk1
    obtain ⟨hr, ht, hsc, hnd, hv⟩ := hk
    obtain ⟨-, -, -, hnd1, hv1⟩ := hk1
    have hn := n_congr _ _ hnd hv wavelength
    have hn1 := n_congr _ _ hnd1 hv1 wavelength
    simp only [traverseSurfaces]
    rw [hr, ht, hsc, hn, hn1]
    simp only [ih]

theorem c1_shape_ignored_witness :
    [surfSq].map LensSurface.numeric = [surfCirc].map LensSurface.numeric ∧
    ∀ k axial_loc p dir,
      traverseSurfaces sqTwo 1 ⟨0, 0, 0⟩ ⟨0, 0, -1⟩ [surfSq] k axial_loc p dir =
        traverseSurfaces sqTwo 1 ⟨0, 0, 0⟩ ⟨0, 0, -1⟩ [surfCirc] k axial_loc
          p dir := by
  have h : [surfSq].map LensSurface.numeric = [surfCirc].map LensSurface.numeric := by
    simp [surfSq, surfCirc, LensSurface.numeric]
  exact ⟨h, c1_shape_ignored sqTwo 1 ⟨0, 0, 0⟩ ⟨0, 0, -1⟩ [surfSq] [surfCirc] h⟩

theorem mTernary_ge (pw : ℚ → ℚ → ℚ) (s : MonomialSurface) (ray : Ray)
    (mx : Bool) (t_min : ℚ) :
    ∀ n l r, t_min ≤ l → t_min ≤ r → t_min ≤ mTernary pw s ray mx n l r := by
  intro n
  induction n with
  | zero => intro l r hl _; simpa [mTernary] using hl
  | succ m ih =>
    intro l r hl hr
    simp only [mTernary]
    split
    · exact ih _ _ (by linarith) hr
    · exact ih _ _ hl (by linarith)

theorem mBisect_ge (pw : ℚ → ℚ → ℚ) (s : MonomialSurface) (ray : Ray)
    (mx : Bool) (t_min : ℚ) :
    ∀ n l r, t_min ≤ l → t_min ≤ r →
      t_min ≤ (mBisect pw s ray mx n l r).1 ∧
      t_min ≤ (mBisect pw s ray mx n l r).2 := by
  intro n
  induction n with
  | zero => intro l r hl hr; simpa [mBisect] using ⟨hl, hr⟩
  | succ m ih =>
    intro l r hl hr
    simp only [mBisect]
    split
    · exact ih _ _ hl (by linarith)
    · exact ih _ _ (by linarith) hr

/-- Claim C5 (amended): `MonomialSurface::intersect` mutates the record
only when it finds a valid hit at a time **no greater than** (not strictly
less than) the record's stored time and no earlier than `t_min`; when it
returns false the record is unchanged, and when it returns true it has
written the record — possibly at a time exactly equal to the stored time,
in which case the record's time is unchanged but its normal is rewritten
(see the counterexample for the boundary case the original claim misses). -/
theorem c5_intersect_tightens (pw : ℚ → ℚ → ℚ) (sq : ℚ → ℚ)
    (s : MonomialSurface) (ray : Ray) (t_min : ℚ) (record : HitRecord)
    (hmin : t_min ≤ 10000) :
    ((MonomialSurface.intersect pw sq s ray t_min record).2 = false →
      (MonomialSurface.intersect pw sq s ray t_min record).1 = record) ∧
    ((MonomialSurface.intersect pw sq s ray t_min record).2 = true →
      ∃ r, (MonomialSurface.intersect pw sq s ray t_min record).1.time = some r ∧
        t_min ≤ r ∧ optLe r record.time) := by
  have htmax : t_min ≤ mTernary pw s ray
      (decide (mDist pw s ray t_min < 0)) 60 t_min 10000 :=
    mTernary_ge pw s ray _ t_min 60 t_min 10000 (le_refl t_min) hmin
  have hbr : t_min ≤ (mBisect pw s ray (decide (mDist pw s ray t_min < 0)) 60
      t_min (mTernary pw s ray (decide (mDist pw s ray t_min < 0)) 60 t_min
        10000)).2 :=
    (mBisect_ge pw s ray _ t_min 60 t_min _ (le_refl t_min) htmax).2
  constructor
  · intro h
    simp only [MonomialSurface.intersect] at h ⊢
    split_ifs at h ⊢ <;> rfl
  · intro h
    simp only [MonomialSurface.intersect] at h ⊢
    split_ifs at h ⊢ with h1 h2 h3 h4 <;>
    first
      | (simp at h; done)
      | (refine ⟨_, rfl, hbr, ?_⟩
         cases hrt : record.time with
         | none => simp [optLe]
         | some t =>
             rw [hrt] at h2
             simp only [decide_eq_true_eq] at h2
             simpa [optLe] using not_lt.mp h2)

theorem c5_intersect_tightens_witness :
    (0 : ℚ) ≤ 10000 ∧
    (((MonomialSurface.intersect pwZero sqOne monoEx rayDown 0
        hitRecordNew).2 = false →
      (MonomialSurface.intersect pwZero sqOne monoEx rayDown 0
        hitRecordNew).1 = hitRecordNew) ∧
    ((MonomialSurface.intersect pwZero sqOne monoEx rayDown 0
        hitRecordNew).2 = true →
      ∃ r, (MonomialSurface.intersect pwZero sqOne monoEx rayDown 0
          hitRecordNew).1.time = some r ∧
        0 ≤ r ∧ optLe r hitRecordNew.time)) :=
  ⟨by norm_num,
    c5_intersect_tightens pwZero sqOne monoEx rayDown 0 hitRecordNew (by norm_num)⟩

theorem mDist_rayDown (t : ℚ) : mDist pwZero monoEx rayDown t = 2 - t := by
  simp [mDist, pwZero, monoEx, rayDown]
  ring

theorem mTernary_rayDown_bound :
    ∀ n l, 2 < l → l < 10000 →
      2 < mTernary pwZero monoEx rayDown false n l 10000 ∧
      mTernary pwZero monoEx rayDown false n l 10000 < 10000 := by
  intro n
  induction n with
  | zero => intro l h1 h2; simpa [mTernary] using ⟨h1, h2⟩
  | succ m ih =>
    intro l h1 h2
    have hc : mDist pwZero monoEx rayDown ((l + 2 * 10000) / 3) <
        mDist pwZero monoEx rayDown ((2 * l + 10000) / 3) := by
      rw [mDist_rayDown, mDist_rayDown]
      linarith
    have hb := ih ((2 * l + 10000) / 3) (by linarith) (by linarith)
    simpa [mTernary, hc] using hb

theorem tmax_bound :
    2 < mTernary pwZero monoEx rayDown false 60 0 10000 ∧
    mTernary pwZero monoEx rayDown false 60 0 10000 < 10000 := by
  have key : ∀ n : ℕ,
      2 < mTernary pwZero monoEx rayDown false (n + 1) 0 10000 ∧
      mTernary pwZero monoEx rayDown false (n + 1) 0 10000 < 10000 := by
    intro n
    have hc : mDist pwZero monoEx rayDown (2 * 10000 / 3) <
        mDist pwZero monoEx rayDown (10000 / 3) := by
      rw [mDist_rayDown, mDist_rayDown]
      norm_num
    have hb := mTernary_rayDown_bound n (10000 / 3) (by norm_num) (by norm_num)
    simpa [mTernary, hc] using hb
  exact key 59

theorem c5_eval (rec : HitRecord)
    (hg : rec.time = none ∨
      rec.time = some ((mBisect pwZero monoEx rayDown false 60 0
        (mTernary pwZero monoEx rayDown false 60 0 10000)).2)) :
    MonomialSurface.intersect pwZero sqOne monoEx rayDown 0 rec =
      (⟨some ((mBisect pwZero monoEx rayDown false 60 0
          (mTernary pwZero monoEx rayDown false 60 0 10000)).2), ⟨0, 1, 0⟩⟩,
        true) := by
  have hmxP : ¬(mDist pwZero monoEx rayDown 0 < 0) := by
    rw [mDist_rayDown]
    norm_num
  have hnegP : mDist pwZero monoEx rayDown
      (mTernary pwZero monoEx rayDown false 60 0 10000) < 0 := by
    rw [mDist_rayDown]
    linarith [tmax_bound.1]
  simp only [monoEx, rayDown] at hmxP hnegP
  rcases hg with hnone | hsome
  · norm_num [MonomialSurface.intersect, hmxP, hnegP, hnone, Ray.at, rayDown,
      monoEx, sqOne, Vec3.smul_def, Vec3.add_def, Vec3.neg_def, Vec3.normalize,
      Vec3.dot]
  · norm_num [MonomialSurface.intersect, hmxP, hnegP, hsome, Ray.at, rayDown,
      monoEx, sqOne, Vec3.smul_def, Vec3.add_def, Vec3.neg_def, Vec3.normalize,
      Vec3.dot]

/-- Claim C5 is refuted at this input (the boundary case of the strictness
condition): the bisection result `r` of `MonomialSurface::intersect` is a
deterministic function of the surface, the ray and `t_min` alone.  Calling
`intersect` once (surface height 1, exponent 4, axial ray from (0,2,0)
pointing down, `t_min = 0`, fresh record) stores time `r`; calling it again
on a record holding that same time `r` and a different normal passes the
source's `r > record.time` guard (which admits equality), so the function
returns true and rewrites the record — at a time equal to, not strictly
closer than, the stored one, and it changes the record's normal.  So
"mutates only on a strictly closer hit, returns true exactly when it
mutated" is false as stated. -/
theorem c5_counterexample :
    (MonomialSurface.intersect pwZero sqOne monoEx rayDown 0
        ⟨(MonomialSurface.intersect pwZero sqOne monoEx rayDown 0
            hitRecordNew).1.time, ⟨7, 7, 7⟩⟩).2 = true ∧
    (MonomialSurface.intersect pwZero sqOne monoEx rayDown 0
        ⟨(MonomialSurface.intersect pwZero sqOne monoEx rayDown 0
            hitRecordNew).1.time, ⟨7, 7, 7⟩⟩).1.time =
      (MonomialSurface.intersect pwZero sqOne monoEx rayDown 0
          hitRecordNew).1.time ∧
    (MonomialSurface.intersect pwZero sqOne monoEx rayDown 0
        ⟨(MonomialSurface.intersect pwZero sqOne monoEx rayDown 0
            hitRecordNew).1.time, ⟨7, 7, 7⟩⟩).1.normal ≠ ⟨7, 7, 7⟩ := by
  have h1 := c5_eval hitRecordNew (Or.inl rfl)
  have h2 := c5_eval ⟨some ((mBisect pwZero monoEx rayDown false 60 0
      (mTernary pwZero monoEx rayDown false 60 0 10000)).2), ⟨7, 7, 7⟩⟩
    (Or.inr rfl)
  simp only [h1, h2]
  refine ⟨by trivial, by trivial, ?_⟩
  intro hc
  exact absurd (congrArg Vec3.y hc) (by norm_num)

end Rpt
